import Mathlib

/-!
Verification model of the classroom-aggregator scraping pipeline.

The Python sources (models.py, google_classroom_scraper.py,
brightspace_scraper.py, auth.py, main.py) are shallowly embedded below:
pure parsing and aggregation logic becomes Lean functions over the raw
page data (element texts, attribute values, API payloads) that the
browser layer would supply; free-text date parsing (the external
dateutil parser) is abstracted as a function parameter of type
String to Option Int (timestamps); exception-raising steps become
Except / Option values.  All modelled strings are treated as sequences
of characters, matching Python string semantics for the ASCII inputs
the scrapers handle.
-/

namespace ClassroomAggregator

/-! ### String helpers mirroring the Python primitives used by the code -/

/-- Characters Python treats as whitespace for str.strip and the regex
class backslash-s (ASCII range). -/
def isPySpace (c : Char) : Bool :=
  c = ' ' || c = '\t' || c = '\n' || c = '\r' || c = '\x0b' || c = '\x0c'

/-- Model of Python str.strip on a character list. -/
def pyStripList (cs : List Char) : List Char :=
  ((cs.dropWhile isPySpace).reverse.dropWhile isPySpace).reverse

/-- Model of Python str.strip. -/
def pyStrip (s : String) : String := ⟨pyStripList s.data⟩

/-- Model of Python str.lower (ASCII). -/
def pyLower (s : String) : String := ⟨s.data.map Char.toLower⟩

/-- Model of Python str.upper (ASCII). -/
def pyUpper (s : String) : String := ⟨s.data.map Char.toUpper⟩

/-- Model of Python s[:n] slicing. -/
def pyTake (n : Nat) (s : String) : String := ⟨s.data.take n⟩

/-- Does needle occur as a contiguous substring of the second list?
Models the Python `in` operator on strings. -/
def hasSubstr (needle : List Char) : List Char → Bool
  | [] => needle.isEmpty
  | c :: t => needle.isPrefixOf (c :: t) || hasSubstr needle t

/-- Model of Python `needle in hay` for strings. -/
def strContains (hay needle : String) : Bool := hasSubstr needle.data hay.data

/-- Model of Python text.split on a newline: split into the list of
segments between newline characters. -/
def splitOnNl : List Char → List (List Char)
  | [] => [[]]
  | c :: rest =>
    let r := splitOnNl rest
    if c = '\n' then [] :: r
    else
      match r with
      | [] => [[c]]
      | h :: t => (c :: h) :: t

/-- The recurring Python idiom over raw element text:
lines = the stripped nonempty pieces of text.split on newline. -/
def cleanLines (s : String) : List String :=
  (splitOnNl s.data).filterMap (fun l =>
    let l2 := pyStripList l
    if l2.isEmpty then none else some ⟨l2⟩)

/-- Largest index of the given character in the list (Python str.rfind). -/
def lastIdxOf (ch : Char) : List Char → Option Nat
  | [] => none
  | c :: rest =>
    match lastIdxOf ch rest with
    | some i => some (i + 1)
    | none => if c = ch then some 0 else none

/-- Generic model of re.search scanning: try the matcher at every start
position from the left, first success wins. -/
def searchSuffixes (f : List Char → Option (List Char)) : List Char → Option (List Char)
  | [] => f []
  | c :: t =>
    match f (c :: t) with
    | some r => some r
    | none => searchSuffixes f t

/-! ### models.py -/

/-- Enum Platform from models.py. -/
inductive Platform where
  | googleClassroom
  | brightspace
deriving DecidableEq, Repr

/-- Enum AssignmentStatus from models.py. -/
inductive AssignmentStatus where
  | notSubmitted
  | missing
  | late
  | assigned
  | upcoming
  | unknown
deriving DecidableEq, Repr

/-- Enum ItemType from models.py. -/
inductive ItemType where
  | assignment
  | announcement
  | material
  | quiz
  | discussion
  | event
deriving DecidableEq, Repr

/-- Dataclass ClassInfo from models.py. -/
structure ClassInfo where
  name : String
  platform : Platform
  url : String
  teacher : String := ""
  short_code : String := ""
deriving DecidableEq, Repr

/-- Dataclass Assignment from models.py.  Datetimes are modelled as
integer timestamps. -/
structure Assignment where
  title : String
  course_name : String
  platform : Platform
  item_type : ItemType := ItemType.assignment
  status : AssignmentStatus := AssignmentStatus.notSubmitted
  due_date : Option Int := none
  due_date_str : String := ""
  description : String := ""
  url : String := ""
  points : String := ""
  posted_date : Option Int := none
  posted_date_str : String := ""
deriving DecidableEq, Repr

/-- Property Assignment.is_overdue from models.py, with the evaluation
time datetime.now passed explicitly. -/
def isOverdue (now : Int) (a : Assignment) : Bool :=
  match a.due_date with
  | some d => decide (d < now)
  | none => false

/-! ### Shared config (google_classroom_scraper.py / brightspace_scraper.py / main.py) -/

/-- DEFAULT_SEMESTER_CLASSES. -/
def defaultSemesterClasses : List String := ["ENG", "GLE", "PPL", "History"]

/-- The Python idiom semester_classes or DEFAULT_SEMESTER_CLASSES:
an empty (or absent) configured list falls back to the default. -/
def orDefault (sem : List String) : List String :=
  if sem.isEmpty then defaultSemesterClasses else sem

/-- Function _matches_semester_class: case-insensitive substring match of
any configured subject code against the class name. -/
def matchesSemesterClass (className : String) (sem : List String) : Bool :=
  (orDefault sem).any (fun code => strContains (pyUpper className) (pyUpper code))

/-- Function _get_short_code: first matching code uppercased, else the
first ten characters of the class name. -/
def getShortCode (className : String) (sem : List String) : String :=
  match (orDefault sem).find? (fun code => strContains (pyUpper className) (pyUpper code)) with
  | some code => pyUpper code
  | none => pyTake 10 className

/-- The semester filter step shared by both scrape_all methods: filter to
matching classes, but fall back to the full list when nothing matches. -/
def filterSemesterClasses (sem : List String) (allClasses : List ClassInfo) : List ClassInfo :=
  let filtered := allClasses.filter (fun c => matchesSemesterClass c.name sem)
  if filtered.isEmpty then allClasses else filtered

/-! ### google_classroom_scraper.py: word/regex helpers -/

/-- BASE_URL of the GoogleClassroomScraper. -/
def gcBase : String := "https://classroom.google.com"

/-- A regex word character (backslash-w), ASCII range. -/
def isWordChar (c : Char) : Bool := c.isAlphanum || c = '_'

/-- The three-letter month tokens of the due/posted date regex. -/
def monthTokens : List String :=
  ["jan", "feb", "mar", "apr", "may", "jun", "jul", "aug", "sep", "oct", "nov", "dec"]

/-- Does a month token match at the head of the character list, with a
word boundary after it?  Case-insensitive. -/
def monthAt (cs : List Char) : Bool :=
  monthTokens.any (fun t =>
    ((cs.take 3).map Char.toLower) == t.data &&
      (match cs.drop 3 with
       | [] => true
       | d :: _ => !isWordChar d))

/-- Scan for a month token with word boundaries on both sides, carrying
the previous character for the left boundary. -/
def monthSearch : Option Char → List Char → Bool
  | _, [] => false
  | prev, c :: rest =>
    ((match prev with | none => true | some p => !isWordChar p) && monthAt (c :: rest))
      || monthSearch (some c) rest

/-- Model of re.search for the month-name pattern with word boundaries,
case-insensitive, used when scanning row lines for a date. -/
def hasMonthToken (s : String) : Bool := monthSearch none s.data

/-- After a case-insensitive match of the literal due, the regex demands
one or more whitespace characters then a nonempty group of non-newline
characters; the whitespace run is greedy but backtracks just enough to
leave the group nonempty, and the group extends to the end of the line. -/
def dueGroupAfter (s : List Char) : Option (List Char) :=
  let m := (s.takeWhile isPySpace).length
  if m = 0 then none
  else
    let ok := fun (j : Nat) =>
      decide (1 ≤ j) &&
        (match s.drop j with
         | [] => false
         | c :: _ => c != '\n')
    match ((List.range (m + 1)).filter ok).getLast? with
    | some j => some ((s.drop j).takeWhile (fun c => c != '\n'))
    | none => none

/-- Matcher for the due-date regex at one start position. -/
def dueAt (cs : List Char) : Option (List Char) :=
  if ((cs.take 3).map Char.toLower) == ("due".data) then dueGroupAfter (cs.drop 3)
  else none

/-- Model of re.search for the due-date capture regex (IGNORECASE). -/
def dueSearch (cs : List Char) : Option (List Char) := searchSuffixes dueAt cs

/-- The item-kind alternatives of the aria-label regex, in alternation
order. -/
def ariaKinds : List String := ["Assignment", "Quiz", "Material", "Question"]

/-- After the kind alternative, the aria-label regex expects a colon,
optional whitespace, an opening double quote, then a nonempty greedy
group of non-newline characters up to the last double quote on the
line. -/
def matchAfterKind (cs : List Char) : Option (List Char) :=
  match cs with
  | ':' :: rest =>
    match rest.dropWhile isPySpace with
    | '"' :: body =>
      let line := body.takeWhile (fun c => c != '\n')
      match lastIdxOf '"' line with
      | some i => if 1 ≤ i then some (line.take i) else none
      | none => none
    | _ => none
  | _ => none

/-- Model of re.match for the aria-label pattern: anchored at the start,
returning the kind alternative and the quoted title. -/
def matchAriaLabel (aria : String) : Option (String × String) :=
  (ariaKinds.filterMap (fun k =>
      if k.data.isPrefixOf aria.data then
        (matchAfterKind (aria.data.drop k.length)).map (fun t => (k, (⟨t⟩ : String)))
      else none)).head?

/-- Mapping of the matched kind word to an ItemType, as in
_parse_stream_item. -/
def kindToType (kind : String) : ItemType :=
  let kl := pyLower kind
  if strContains kl "quiz" || strContains kl "question" then ItemType.quiz
  else if strContains kl "material" then ItemType.material
  else ItemType.assignment

/-- URL normalisation at the end of _parse_stream_item. -/
def mkGcUrl (href : String) : String :=
  if ("http".data).isPrefixOf href.data then href
  else if href ≠ "" then gcBase ++ href else ""

/-! ### google_classroom_scraper.py: _parse_stream_item -/

/-- The raw data of one stream-item container that _parse_stream_item
reads from the page: the first link carrying an aria-label with its
href, the first description element text, the first due element text,
and the container inner text. -/
structure StreamItemData where
  link : Option (String × String)
  descText : Option String
  dueText : Option String
  fullText : String
deriving DecidableEq, Repr

/-- Step one of the stream-item parsers: title, item type and href from
the first link carrying an aria-label. -/
def ariaStep (link : Option (String × String)) : String × ItemType × String :=
  match link with
  | some (aria, h) =>
    match matchAriaLabel aria with
    | some (kind, t) => (t, kindToType kind, h)
    | none => ("", ItemType.assignment, h)
  | none => ("", ItemType.assignment, "")

/-- Step two: fall back to the description text after its last colon
when the aria-label yielded no title. -/
def fallbackTitle (title0 : String) (descText : Option String) : String :=
  if title0 = "" then
    match descText with
    | some d =>
      let dt := pyStrip d
      match lastIdxOf ':' dt.data with
      | some i => pyStrip ⟨dt.data.drop (i + 1)⟩
      | none => dt
    | none => ""
  else title0

/-- The title the stream-item parsers extract. -/
def itemTitle (it : StreamItemData) : String :=
  fallbackTitle (ariaStep it.link).1 it.descText

/-- Step three: due date and raw due string from the due element
text. -/
def dueParse (pd : String → Option Int) (dueText : Option String) :
    Option Int × String :=
  match dueText with
  | some raw0 =>
    let raw := pyStrip raw0
    match dueSearch raw.data with
    | some g => (pd ⟨g⟩, raw)
    | none => (none, raw)
  | none => (none, "")

/-- Model of _parse_stream_item.  The external fuzzy date parser is
abstracted as pd. -/
def parseStreamItem (pd : String → Option Int) (cls : ClassInfo)
    (it : StreamItemData) : Option Assignment :=
  let itemType := (ariaStep it.link).2.1
  let href := (ariaStep it.link).2.2
  let title := itemTitle it
  if title = "" then none
  else
    let due := dueParse pd it.dueText
    let fullLower := pyLower (pyStrip it.fullText)
    if strContains fullLower "missing" then
      some { title := title, course_name := cls.name, platform := Platform.googleClassroom,
             item_type := itemType, status := AssignmentStatus.missing,
             due_date := due.1, due_date_str := due.2, url := mkGcUrl href }
    else if strContains fullLower "turned in" || strContains fullLower "done" then
      none
    else if strContains fullLower "late" then
      some { title := title, course_name := cls.name, platform := Platform.googleClassroom,
             item_type := itemType, status := AssignmentStatus.late,
             due_date := due.1, due_date_str := due.2, url := mkGcUrl href }
    else
      some { title := title, course_name := cls.name, platform := Platform.googleClassroom,
             item_type := itemType, status := AssignmentStatus.assigned,
             due_date := due.1, due_date_str := due.2, url := mkGcUrl href }

/-! ### google_classroom_scraper.py: _scrape_class_list -/

/-- A raw course link element: href attribute, inner_text and
text_content. -/
structure RawLink where
  href : String
  innerText : String
  textContent : String
deriving DecidableEq, Repr

/-- The text chosen for a link: stripped inner_text, falling back to
stripped text_content when empty. -/
def linkText (lk : RawLink) : String :=
  let t := pyStrip lk.innerText
  if t = "" then pyStrip lk.textContent else t

/-- Model of re.search for the course-id pattern: the first occurrence
of the literal segment marker followed by a nonempty greedy run of
non-slash characters. -/
def extractCid (href : String) : Option String :=
  (searchSuffixes (fun cs =>
      if ("/c/".data).isPrefixOf cs then
        let ds := (cs.drop 3).takeWhile (fun c => c != '/')
        if ds.isEmpty then none else some ds
      else none) href.data).map (fun ds => (⟨ds⟩ : String))

/-- The per-link validation of the course-link collection loop: nonempty
text, a course marker in the raw href, root-relative hrefs prefixed with
the base URL, and an extractable course id. -/
def validLinks (links : List RawLink) : List (String × String × String) :=
  links.filterMap (fun lk =>
    let text := linkText lk
    if text = "" || !(strContains lk.href "/c/") then none
    else
      let href := if ("/".data).isPrefixOf lk.href.data then gcBase ++ lk.href else lk.href
      match extractCid href with
      | some cid => some (cid, href, text)
      | none => none)

/-- Append an entry to the group of its course id, creating the group at
the end when the id is new (Python dict setdefault order). -/
def addToGroups (groups : List (String × List (String × String))) (cid : String)
    (e : String × String) : List (String × List (String × String)) :=
  match groups with
  | [] => [(cid, [e])]
  | (k, es) :: rest =>
    if k = cid then (k, es ++ [e]) :: rest
    else (k, es) :: addToGroups rest cid e

/-- Model of the course_texts dictionary: group the validated links by
course id, keys in first-seen order. -/
def groupByCid (ls : List (String × String × String)) : List (String × List (String × String)) :=
  ls.foldl (fun gs e => addToGroups gs e.1 (e.2.1, e.2.2)) []

/-- The entry chosen from a group after the stable sort by descending
text length: the earliest entry of maximal text length. -/
def pickBest (e : String × String) (rest : List (String × String)) : String × String :=
  rest.foldl (fun best x => if best.2.length < x.2.length then x else best) e

/-- Does the suffix-stripping regex match at this position: the literal
marker followed by at least one character, all non-newline to the end. -/
def spMatchAt (cs : List Char) : Bool :=
  ("/sp/".data).isPrefixOf cs && !(cs.drop 4).isEmpty &&
    (cs.drop 4).all (fun c => c != '\n')

/-- Model of re.sub removing a single-page suffix from the class URL
(newline-free URLs). -/
def stripSpSuffix : List Char → List Char
  | [] => []
  | c :: rest => if spMatchAt (c :: rest) then [] else c :: stripSpSuffix rest

/-- Name and section extraction from the chosen fragment text: when the
first line is at most two characters (an icon glyph) and a second line
exists, the second line is the name; otherwise the first line is (the
course id when there are no lines at all). -/
def classNameOf (cid : String) (bestText : String) : String × String :=
  let lines := cleanLines bestText
  match lines with
  | [] => (cid, "")
  | l0 :: rest =>
    if rest.length + 1 ≥ 2 && l0.length ≤ 2 then
      match rest with
      | l1 :: rest2 => (l1, rest2.headD "")
      | [] => (l0, "")
    else (l0, rest.headD "")

/-- Build the ClassInfo of one course group (nonempty by construction;
the empty case is unreachable). -/
def mkClassFromGroup (sem : List String) (g : String × List (String × String)) : ClassInfo :=
  match g with
  | (cid, entries) =>
    match entries with
    | [] =>
      { name := cid, platform := Platform.googleClassroom, url := "",
        teacher := "", short_code := getShortCode cid sem }
    | e :: rest =>
      let best := pickBest e rest
      let nameSec := classNameOf cid best.2
      { name := nameSec.1, platform := Platform.googleClassroom,
        url := ⟨stripSpSuffix best.1.data⟩, teacher := nameSec.2,
        short_code := getShortCode nameSec.1 sem }

/-- Model of _scrape_class_list: group links by course id, build one
class per group, and fall back to the broader strategies (abstracted as
fallbackClasses) only when no class was produced. -/
def scrapeClassList (sem : List String) (links : List RawLink)
    (fallbackClasses : List ClassInfo) : List ClassInfo :=
  let classes := (groupByCid (validLinks links)).map (mkClassFromGroup sem)
  if classes.isEmpty then fallbackClasses else classes

/-! ### google_classroom_scraper.py: _parse_global_todo_item -/

/-- Model of _parse_global_todo_item: same title extraction as the
stream-item parser, course name recovered by scanning the container
text for a configured subject code, status fixed to NotSubmitted and no
completed-item filtering. -/
def parseGlobalTodoItem (pd : String → Option Int) (sem : List String)
    (it : StreamItemData) : Option Assignment :=
  let itemType := (ariaStep it.link).2.1
  let href := (ariaStep it.link).2.2
  let title := itemTitle it
  if title = "" then none
  else
    let fullText := pyStrip it.fullText
    let courseName :=
      match sem.find? (fun code => strContains (pyUpper fullText) (pyUpper code)) with
      | some code => code
      | none => "Unknown Class"
    let due := dueParse pd it.dueText
    some { title := title, course_name := courseName,
           platform := Platform.googleClassroom, item_type := itemType,
           status := AssignmentStatus.notSubmitted,
           due_date := due.1, due_date_str := due.2, url := mkGcUrl href }

/-! ### brightspace_scraper.py -/

/-- BASE_URL of the BrightspaceScraper. -/
def bsBase : String := "https://tdsb.elearningontario.ca"

/-- Model of _extract_course_id: the first numeric id after the d2l home
segment, else after an ou= query marker, else a trailing numeric path
segment (optionally slash-terminated); empty string when none match. -/
def extractCourseId (url : String) : String :=
  let lit := fun (marker : List Char) (cs : List Char) =>
    if marker.isPrefixOf cs then
      let ds := (cs.drop marker.length).takeWhile Char.isDigit
      if ds.isEmpty then none else some ds
    else none
  match searchSuffixes (lit ("/d2l/home/".data)) url.data with
  | some ds => ⟨ds⟩
  | none =>
    match searchSuffixes (lit ("ou=".data)) url.data with
    | some ds => ⟨ds⟩
    | none =>
      match searchSuffixes (fun cs =>
          match cs with
          | '/' :: rest =>
            let ds := rest.takeWhile Char.isDigit
            if ds.isEmpty then none
            else
              match rest.drop ds.length with
              | [] => some ds
              | ['/'] => some ds
              | _ => none
          | _ => none) url.data with
      | some ds => ⟨ds⟩
      | none => ""

/-- One folder of the dropbox assignments API payload. -/
structure DropboxFolder where
  name : String
  due : String
deriving DecidableEq, Repr

/-- Model of _fetch_assignments_api on a dropbox payload: one assignment
per folder with a nonempty name; the due string is parsed when
nonempty. -/
def fetchAssignmentsApi (pd : String → Option Int) (cls : ClassInfo)
    (data : Option (List DropboxFolder)) : List Assignment :=
  match data with
  | none => []
  | some folders =>
    folders.filterMap (fun f =>
      if f.name ≠ "" then
        some { title := f.name, course_name := cls.name,
               platform := Platform.brightspace, item_type := ItemType.assignment,
               status := AssignmentStatus.notSubmitted,
               due_date := if f.due ≠ "" then pd f.due else none,
               due_date_str := f.due }
      else none)

/-- The header titles skipped by the assignment-row loop. -/
def rowHeaderTitles : List String := ["name", "assignment", "due date", "status"]

/-- Search the row lines for the first line carrying a month token whose
fuzzy parse succeeds; a failing parse skips that line and continues. -/
def findDueLine (pd : String → Option Int) : List String → Option Int × String
  | [] => (none, "")
  | l :: rest =>
    if hasMonthToken l then
      match pd l with
      | some d => (some d, l)
      | none => findDueLine pd rest
    else findDueLine pd rest

/-- Model of one iteration of the assignment-row loop in
_scrape_class_assignments: rows shorter than three characters, header
rows and rows whose text mentions submitted or completed are skipped;
overdue or past due marks the row Missing. -/
def parseBsRow (pd : String → Option Int) (cls : ClassInfo) (rowText : String) :
    Option Assignment :=
  let text := pyStrip rowText
  if text = "" || text.length < 3 then none
  else
    match cleanLines text with
    | [] => none
    | title :: restLines =>
      if rowHeaderTitles.contains (pyLower title) then none
      else
        let due := findDueLine pd (title :: restLines)
        let tl := pyLower text
        if strContains tl "submitted" || strContains tl "completed" then none
        else
          let status :=
            if strContains tl "overdue" || strContains tl "past due" then
              AssignmentStatus.missing
            else AssignmentStatus.notSubmitted
          some { title := title, course_name := cls.name,
                 platform := Platform.brightspace, item_type := ItemType.assignment,
                 status := status, due_date := due.1, due_date_str := due.2 }

/-- The header titles skipped by the quiz-row loop. -/
def quizHeaderTitles : List String := ["name", "quiz", "date", "status"]

/-- Model of one iteration of the quiz-row loop in _scrape_quizzes. -/
def parseQuizRow (cls : ClassInfo) (rowText : String) : Option Assignment :=
  let text := pyStrip rowText
  if text = "" || text.length < 3 then none
  else
    match cleanLines text with
    | [] => none
    | title :: _ =>
      if quizHeaderTitles.contains (pyLower title) then none
      else
        let tl := pyLower text
        if strContains tl "completed" || strContains tl "submitted" then none
        else
          some { title := title, course_name := cls.name,
                 platform := Platform.brightspace, item_type := ItemType.quiz,
                 status := AssignmentStatus.notSubmitted }

/-- Model of _scrape_class_assignments: nothing without a course id; the
API result short-circuits when nonempty; otherwise the assignment page
rows are parsed and the quiz rows appended. -/
def scrapeClassAssignments (pd : String → Option Int) (cls : ClassInfo)
    (api : Option (List DropboxFolder)) (rows : List String)
    (quizRows : List String) : List Assignment :=
  if extractCourseId cls.url = "" then []
  else
    let apiA := fetchAssignmentsApi pd cls api
    if !apiA.isEmpty then apiA
    else rows.filterMap (parseBsRow pd cls) ++ quizRows.filterMap (parseQuizRow cls)

/-- One entry of the news API payload: either a well-formed object with
its title and nested body text projected (missing fields become empty
strings), or a malformed entry (such as a null Title or Body) whose
processing raises an exception. -/
inductive NewsPayloadItem where
  | ok (titleRaw : String) (bodyText : String)
  | bad
deriving DecidableEq, Repr

/-- The blocklist of UI labels in the announcements HTML fallback. -/
def uiJunk : List String :=
  ["show search options", "hide search options", "search in",
   "headlinecontent", "posted in", "search", "filter",
   "sort", "show", "hide", "actions", "select all",
   "news", "announcements", "no items to display"]

/-- Model of one iteration of the announcements HTML-fallback loop:
texts shorter than eight characters, blocklisted titles and titles
shorter than five characters are skipped; the posted date string is the
first line with a month token. -/
def parseAnnouncementRow (cls : ClassInfo) (rowText : String) : Option Assignment :=
  let text := pyStrip rowText
  if text = "" || text.length < 8 then none
  else
    match cleanLines text with
    | [] => none
    | title :: restLines =>
      if uiJunk.contains (pyStrip (pyLower title)) then none
      else if title.length < 5 then none
      else
        let postedStr := ((title :: restLines).find? hasMonthToken).getD ""
        some { title := title, course_name := cls.name,
               platform := Platform.brightspace, item_type := ItemType.announcement,
               status := AssignmentStatus.assigned, posted_date_str := postedStr }

/-- The news-API item loop of _scrape_class_announcements: entries are
processed left to right, one announcement appended per well-formed
entry with a nonempty stripped title; a malformed entry raises,
abandoning the remaining entries but keeping the already-appended
partial list (the second component records whether the loop completed
without an exception). -/
def newsApiLoop (cls : ClassInfo) : List NewsPayloadItem → List Assignment × Bool
  | [] => ([], true)
  | NewsPayloadItem.bad :: _ => ([], false)
  | NewsPayloadItem.ok t b :: rest =>
    let r := newsApiLoop cls rest
    let here :=
      let ts := pyStrip t
      if ts = "" then []
      else
        [{ title := ts, course_name := cls.name, platform := Platform.brightspace,
           item_type := ItemType.announcement, status := AssignmentStatus.assigned,
           description := pyTake 200 (pyStrip b) }]
    (here ++ r.1, r.2)

/-- The whole API section of _scrape_class_announcements: a null or
failed fetch and an empty (falsy) payload both contribute nothing, a
nonempty payload is truncated to its first ten entries and run through
the item loop; the flag records whether the early-return check after
the loop is reached. -/
def newsApiStep (cls : ClassInfo) (api : Option (List NewsPayloadItem)) :
    List Assignment × Bool :=
  match api with
  | some items =>
    if items.isEmpty then ([], false)
    else newsApiLoop cls (items.take 10)
  | none => ([], false)

/-- Model of _scrape_class_announcements: nothing without a course id;
when the API item loop completes without an exception and collected
anything, exactly those items are returned; otherwise the first ten
located HTML items are parsed and appended to whatever partial list the
API section left behind (the announcements list is shared between the
two sections, so a mid-loop API exception retains its partial appends
before the HTML fallback adds more). -/
def scrapeClassAnnouncements (cls : ClassInfo) (api : Option (List NewsPayloadItem))
    (htmlItems : List String) : List Assignment :=
  if extractCourseId cls.url = "" then []
  else
    let s := newsApiStep cls api
    if s.2 && !s.1.isEmpty then s.1
    else s.1 ++ (htmlItems.take 10).filterMap (parseAnnouncementRow cls)

/-- The widget lines skipped by the work-to-do loop. -/
def workToDoSkip : List String := ["work to do", "upcoming", ""]

/-- The widget lines skipped by the upcoming-events loop. -/
def upcomingSkip : List String := ["upcoming events", "calendar", ""]

/-- Model of _scrape_upcoming_events: every remaining line of the
calendar widget text becomes an Event item. -/
def scrapeUpcomingEvents (calendarText : Option String) : List Assignment :=
  match calendarText with
  | some t =>
    (cleanLines (pyStrip t)).filterMap (fun line =>
      if upcomingSkip.contains (pyLower line) then none
      else
        some { title := line, course_name := "", platform := Platform.brightspace,
               item_type := ItemType.event, status := AssignmentStatus.upcoming })
  | none => []

/-- Model of _scrape_work_to_do: every remaining line of the widget text
becomes a NotSubmitted assignment (no keyword filtering), with the
upcoming events appended. -/
def scrapeWorkToDo (widgetText : Option String) (calendarText : Option String) :
    List Assignment :=
  let base :=
    match widgetText with
    | some t =>
      (cleanLines (pyStrip t)).filterMap (fun line =>
        if workToDoSkip.contains (pyLower line) then none
        else
          some { title := line, course_name := "", platform := Platform.brightspace,
                 item_type := ItemType.assignment,
                 status := AssignmentStatus.notSubmitted })
    | none => []
  base ++ scrapeUpcomingEvents calendarText

/-! ### Aggregation (main.py run, brightspace_scraper.py scrape_all) -/

/-- The title-dedup idiom shared by run and scrape_all: the set of
already-collected titles is computed once, then every extra item whose
title is not in it is appended. -/
def dedupAppend (base extra : List Assignment) : List Assignment :=
  let titles := base.map (fun a => a.title)
  base ++ extra.filter (fun a => !(titles.contains a.title))

/-- The tail of scrape_all in the Brightspace scraper: the global
work-to-do items are deduplicated by title against the per-course
items; a failure of the global pass leaves the per-course items
alone. -/
def bsAggregate (perCourse : List Assignment)
    (todo : Except String (List Assignment)) : List Assignment :=
  match todo with
  | Except.error _ => perCourse
  | Except.ok t => dedupAppend perCourse t

/-- Number of items in the list carrying the given title. -/
def countTitle (l : List Assignment) (t : String) : Nat :=
  (l.filter (fun a => a.title == t)).length

/-- What run displays at the end: the two class lists, the aggregate
assignment list handed to display_assignments and display_summary, and
the fact that the display step runs. -/
structure RunDisplay where
  gcClasses : List ClassInfo
  bsClasses : List ClassInfo
  assignments : List Assignment
  displayed : Bool
deriving DecidableEq, Repr

/-- The Google Classroom phase of run: a scrape failure leaves both the
class list and the item list empty; a global-to-do failure keeps the
per-course items; otherwise the to-do items are title-deduplicated
in. -/
def gcPhase (scrape : Except String (List ClassInfo × List Assignment))
    (todo : Except String (List Assignment)) : List ClassInfo × List Assignment :=
  match scrape with
  | Except.error _ => ([], [])
  | Except.ok (cs, items) =>
    match todo with
    | Except.error _ => (cs, items)
    | Except.ok t => (cs, dedupAppend items t)

/-- The Brightspace phase of run: a failure leaves both lists empty. -/
def bsPhase (scrape : Except String (List ClassInfo × List Assignment)) :
    List ClassInfo × List Assignment :=
  match scrape with
  | Except.error _ => ([], [])
  | Except.ok (cs, items) => (cs, items)

/-- Model of run in main.py: each source phase is wrapped so that a
failure yields empty results for that source only, the aggregate is the
concatenation, and the display step always runs afterwards. -/
def runModel (gc : Except String (List ClassInfo × List Assignment))
    (gcTodo : Except String (List Assignment))
    (bs : Except String (List ClassInfo × List Assignment)) : RunDisplay :=
  let g := gcPhase gc gcTodo
  let b := bsPhase bs
  { gcClasses := g.1, bsClasses := b.1, assignments := g.2 ++ b.2, displayed := true }

/-! ### Sorting (main.py display_assignments) -/

/-- Model of datetime.max as a timestamp, larger than any due date the
date parser produces for real inputs. -/
def dtMax : Int := 253402300799999999

/-- The first component of the sort key in display_assignments. -/
def sortBucket (now : Int) (a : Assignment) : Nat :=
  if a.status = AssignmentStatus.missing then 0
  else if isOverdue now a then 1
  else if a.due_date.isSome then 2
  else 3

/-- The composite sort key: bucket, then the due date with datetime.max
substituted when absent. -/
def sortKey (now : Int) (a : Assignment) : Nat × Int :=
  (sortBucket now a, a.due_date.getD dtMax)

/-- Lexicographic comparison of sort keys, as Python compares the key
tuples. -/
def tupLe (x y : Nat × Int) : Bool :=
  decide (x.1 < y.1 ∨ (x.1 = y.1 ∧ x.2 ≤ y.2))

/-- The stable within-course sort of display_assignments. -/
def sortCourseGroup (now : Int) (l : List Assignment) : List Assignment :=
  l.mergeSort (fun a b => tupLe (sortKey now a) (sortKey now b))

/-! ### auth.py: the Brightspace login negotiation -/

/-- The interactions the login state machine can perform. -/
inductive AuthAction where
  | clickLanding
  | fillUsername
  | clickNextUser
  | fillPassword
  | clickSignIn
  | clickStaySignedIn
deriving DecidableEq, Repr

/-- Which actions touch a credential field. -/
def isCredentialAction : AuthAction → Bool
  | AuthAction.fillUsername => true
  | AuthAction.fillPassword => true
  | _ => false

/-- The page state _handle_entra_login negotiates against, taken as
static for one negotiation: the current address and which elements are
visible or clickable. -/
structure EntraEnv where
  url : String
  loginfmtVisible : Bool
  fallbackUserVisible : Bool
  passwordVisible : Bool
  nextClickable : Bool
  signInClickable : Bool
  stayPromptVisible : Bool
deriving DecidableEq, Repr

/-- The destination check raced against the login form in
_handle_entra_login. -/
def entraDestReached (env : EntraEnv) : Bool :=
  strContains env.url "elearningontario" || strContains env.url "classroom.google"

/-- The field-entry tail of _handle_entra_login once a username field
was found: fill the username, click next when clickable, then fill the
password when a password field appears, sign in, and acknowledge the
optional stay-signed-in prompt. -/
def entraAfterUserFound (env : EntraEnv) : List AuthAction :=
  [AuthAction.fillUsername]
    ++ (if env.nextClickable then [AuthAction.clickNextUser] else [])
    ++ (if env.passwordVisible then
          [AuthAction.fillPassword]
            ++ (if env.signInClickable then [AuthAction.clickSignIn] else [])
            ++ (if env.stayPromptVisible then [AuthAction.clickStaySignedIn] else [])
        else [])

/-- Model of _handle_entra_login: the bounded wait races the username
field against the destination address; reaching the destination returns
before any form interaction; a timeout tries fallback selectors, and
exhausting them returns with no interaction. -/
def handleEntraLogin (env : EntraEnv) : List AuthAction :=
  if env.loginfmtVisible || entraDestReached env then
    if entraDestReached env then []
    else entraAfterUserFound env
  else
    if strContains env.url "elearningontario" then []
    else if env.fallbackUserVisible then entraAfterUserFound env
    else []

/-- The page state login_brightspace sees: whether the landing login
button exists, and the current address when the already-on-Brightspace
check runs. -/
structure BsLoginEnv where
  landingClickable : Bool
  urlAfterLanding : String
  entra : EntraEnv
deriving DecidableEq, Repr

/-- Model of login_brightspace: click the landing login button when
present, then skip the whole Entra negotiation when the current address
already matches the Brightspace destination pattern. -/
def loginBrightspace (env : BsLoginEnv) : List AuthAction :=
  (if env.landingClickable then [AuthAction.clickLanding] else [])
    ++ (if strContains env.urlAfterLanding "elearningontario.ca" &&
           strContains env.urlAfterLanding "/d2l/" then []
        else handleEntraLogin env.entra)

/-! ### Shared helper lemmas -/

/-- A filterMap over a ten-element truncation yields at most ten
results. -/
theorem length_filterMap_take_le {α β : Type} (f : α → Option β) (l : List α) (n : Nat) :
    ((l.take n).filterMap f).length ≤ n :=
  le_trans (List.length_filterMap_le _ _) (List.length_take_le _ _)

/-- Every line produced by cleanLines is nonempty. -/
theorem cleanLines_ne_empty (s : String) : ∀ l ∈ cleanLines s, l ≠ "" := by
  intro l hl
  unfold cleanLines at hl
  simp only [List.mem_filterMap] at hl
  obtain ⟨cs, _, hcs⟩ := hl
  by_cases h : (pyStripList cs).isEmpty
  · simp [h] at hcs
  · simp only [h, Bool.false_eq_true, if_neg, not_false_iff] at hcs
    have hx : (⟨pyStripList cs⟩ : String) = l := Option.some.inj hcs
    intro he
    rw [he] at hx
    have hdata : pyStripList cs = [] := by
      have h2 := congrArg String.data hx
      simpa using h2
    rw [hdata] at h
    exact h rfl

/-! ### Claim theorems -/

/-- A shared trivial date parser for concrete witnesses: the external
fuzzy parser abstracted as always failing. -/
def noParse : String → Option Int := fun _ => none

/-- A concrete Brightspace class used in witnesses. -/
def engBsClass : ClassInfo :=
  { name := "ENG4U", platform := Platform.brightspace,
    url := "https://tdsb.elearningontario.ca/d2l/home/12345" }

/-- A concrete Brightspace class whose URL has no extractable course
id. -/
def noIdBsClass : ClassInfo :=
  { name := "ENG4U", platform := Platform.brightspace,
    url := "https://tdsb.elearningontario.ca/d2l/home" }

/-- The API item loop appends at most one announcement per payload
entry. -/
theorem newsApiLoop_le (cls : ClassInfo) :
    ∀ l : List NewsPayloadItem, (newsApiLoop cls l).1.length ≤ l.length := by
  intro l
  induction l with
  | nil => simp [newsApiLoop]
  | cons x rest ih =>
    cases x with
    | bad => simp [newsApiLoop]
    | ok t b =>
      simp only [newsApiLoop, List.length_append, List.length_cons]
      by_cases hts : pyStrip t = ""
      · simp only [hts, if_pos, List.length_nil]
        omega
      · simp only [hts, if_neg, not_false_iff, List.length_singleton]
        omega

/-- The API section contributes at most ten announcements, complete or
partial. -/
theorem newsApiStep_le_ten (cls : ClassInfo) (api : Option (List NewsPayloadItem)) :
    (newsApiStep cls api).1.length ≤ 10 := by
  unfold newsApiStep
  cases api with
  | none => simp
  | some items =>
    by_cases he : items.isEmpty
    · simp [he]
    · simp only [he, Bool.false_eq_true, if_neg, not_false_iff]
      exact le_trans (newsApiLoop_le cls _) (List.length_take_le _ _)

/-- Ten HTML rows that all pass the announcement filters. -/
def htmlTenRows : List String :=
  ["Quiz moved to Monday", "Report cards next week", "Gym uniforms required",
   "Library closed today", "Picture day Tuesday", "Assembly this Friday",
   "Field trip forms due", "Exam schedule posted", "Snow day procedures",
   "Parent night planned"]

/-- C9 counterexample: a news payload whose second entry is malformed
raises after one announcement was already appended; the partial list is
kept, the HTML fallback appends ten more rows to it, and extraction
returns eleven items — more than ten. -/
theorem announcementsAtMostTen_cex :
    (scrapeClassAnnouncements engBsClass
        (some [NewsPayloadItem.ok "Field trip Friday" "", NewsPayloadItem.bad])
        htmlTenRows).length = 11 := by
  decide

/-- C9 amended: each path truncates its candidates to the first ten
entries before parsing, so the news-API section contributes at most ten
items and the HTML fallback at most ten more — at most twenty in total;
the bound of ten holds whenever the API item loop runs to completion
without an exception (and in particular whenever the API fetch yields
nothing at all). -/
theorem announcementsTruncationSpec :
    (∀ (cls : ClassInfo) (api : Option (List NewsPayloadItem)) (htmlItems : List String),
        (scrapeClassAnnouncements cls api htmlItems).length ≤ 20)
    ∧ (∀ (cls : ClassInfo) (items : List NewsPayloadItem) (htmlItems : List String),
        (newsApiLoop cls (items.take 10)).2 = true →
        (scrapeClassAnnouncements cls (some items) htmlItems).length ≤ 10)
    ∧ (∀ (cls : ClassInfo) (htmlItems : List String),
        (scrapeClassAnnouncements cls none htmlItems).length ≤ 10) := by
  refine ⟨?_, ?_, ?_⟩
  · intro cls api htmlItems
    simp only [scrapeClassAnnouncements]
    split
    · simp
    · split
      · exact le_trans (newsApiStep_le_ten cls api) (by omega)
      · rw [List.length_append]
        have h1 := newsApiStep_le_ten cls api
        have h2 := length_filterMap_take_le (parseAnnouncementRow cls) htmlItems 10
        omega
  · intro cls items htmlItems hok
    simp only [scrapeClassAnnouncements]
    split
    · simp
    · split
      · exact newsApiStep_le_ten cls (some items)
      · rename_i hcond
        have hempty : (newsApiStep cls (some items)).1 = [] := by
          by_cases he : items.isEmpty
          · simp [newsApiStep, he]
          · have h2 : (newsApiStep cls (some items)).2 = true := by
              simpa [newsApiStep, he] using hok
            rw [h2] at hcond
            simp only [Bool.true_and, Bool.not_eq_true', Bool.not_eq_false] at hcond
            simpa using hcond
        rw [hempty]
        simpa using length_filterMap_take_le (parseAnnouncementRow cls) htmlItems 10
  · intro cls htmlItems
    simp only [scrapeClassAnnouncements]
    split
    · simp
    · have hs : newsApiStep cls none = ([], false) := rfl
      rw [hs]
      simpa using length_filterMap_take_le (parseAnnouncementRow cls) htmlItems 10

/-- Witness for announcementsTruncationSpec: a well-formed one-entry
payload completes the loop, so the result stays within ten. -/
theorem announcementsTruncationSpec_witness :
    (scrapeClassAnnouncements engBsClass
        (some [NewsPayloadItem.ok "Field trip Friday" ""]) []).length ≤ 10 :=
  announcementsTruncationSpec.2.1 engBsClass
    [NewsPayloadItem.ok "Field trip Friday" ""] [] (by decide)

/-- C10: a class URL with no extractable numeric course id makes both
assignment extraction and announcement extraction return the empty list
instead of raising. -/
theorem noCourseIdNoItems (pd : String → Option Int) (cls : ClassInfo)
    (api : Option (List DropboxFolder)) (rows quizRows : List String)
    (napi : Option (List NewsPayloadItem)) (htmlItems : List String)
    (h : extractCourseId cls.url = "") :
    scrapeClassAssignments pd cls api rows quizRows = [] ∧
      scrapeClassAnnouncements cls napi htmlItems = [] := by
  constructor
  · unfold scrapeClassAssignments
    simp [h]
  · unfold scrapeClassAnnouncements
    simp [h]

/-- Witness for noCourseIdNoItems: a home URL without a numeric segment
yields no course id and hence no items. -/
theorem noCourseIdNoItems_witness :
    scrapeClassAssignments noParse noIdBsClass none [] [] = [] ∧
      scrapeClassAnnouncements noIdBsClass none [] = [] :=
  noCourseIdNoItems noParse noIdBsClass none [] [] none [] (by decide)

/-- C7: a failing source leaves the other source's scraped classes and
items intact in what run displays, and when both sources fail the run
still displays empty class lists, an empty assignment list and the
summary instead of crashing. -/
theorem runIsolatesSourceFailures :
    (∀ (e : String) (todo : Except String (List Assignment))
        (cs : List ClassInfo) (its : List Assignment),
        runModel (Except.error e) todo (Except.ok (cs, its)) =
          { gcClasses := [], bsClasses := cs, assignments := its, displayed := true })
    ∧ (∀ (e : String) (todo : Except String (List Assignment))
        (cs : List ClassInfo) (its : List Assignment),
        runModel (Except.ok (cs, its)) todo (Except.error e) =
          { gcClasses := cs, bsClasses := [],
            assignments := (gcPhase (Except.ok (cs, its)) todo).2, displayed := true })
    ∧ (∀ (e1 e2 : String) (todo : Except String (List Assignment)),
        runModel (Except.error e1) todo (Except.error e2) =
          { gcClasses := [], bsClasses := [], assignments := [], displayed := true }) := by
  refine ⟨?_, ?_, ?_⟩
  · intro e todo cs its
    simp [runModel, gcPhase, bsPhase]
  · intro e todo cs its
    rcases todo with te | t <;> simp [runModel, gcPhase, bsPhase]
  · intro e1 e2 todo
    simp [runModel, gcPhase, bsPhase]

/-- Concrete classes for the course-filter scenario. -/
def gleClass : ClassInfo :=
  { name := "GLE - Learning Strategies", platform := Platform.googleClassroom, url := "g" }

/-- Concrete English class for the course-filter scenario. -/
def engClass : ClassInfo :=
  { name := "ENG4U", platform := Platform.googleClassroom, url := "e" }

/-- Concrete unmatched class for the course-filter scenario. -/
def artClass : ClassInfo :=
  { name := "Art", platform := Platform.googleClassroom, url := "a" }

/-- C6: the semester filter retains exactly the courses whose name
contains a configured code as a case-insensitive substring, falls back
to the full list when the filtered set is empty, and hence never turns
a nonempty scraped course list into an empty one; on the concrete
scenario the two matching courses are retained and the third dropped. -/
theorem semesterFilterSpec :
    (∀ (sem : List String) (allClasses : List ClassInfo) (c : ClassInfo),
        c ∈ allClasses.filter (fun x => matchesSemesterClass x.name sem) ↔
          c ∈ allClasses ∧ matchesSemesterClass c.name sem = true)
    ∧ (∀ (sem : List String) (allClasses : List ClassInfo),
        allClasses.filter (fun x => matchesSemesterClass x.name sem) = [] →
          filterSemesterClasses sem allClasses = allClasses)
    ∧ (∀ (sem : List String) (allClasses : List ClassInfo),
        allClasses ≠ [] → filterSemesterClasses sem allClasses ≠ [])
    ∧ (matchesSemesterClass "GLE - Learning Strategies" ["GLE", "ENG"] = true
        ∧ matchesSemesterClass "ENG4U" ["GLE", "ENG"] = true
        ∧ matchesSemesterClass "Art" ["GLE", "ENG"] = false
        ∧ filterSemesterClasses ["GLE", "ENG"] [gleClass, engClass, artClass] =
            [gleClass, engClass]) := by
  refine ⟨?_, ?_, ?_, by decide⟩
  · intro sem allClasses c
    simp [List.mem_filter]
  · intro sem allClasses hf
    unfold filterSemesterClasses
    simp [hf]
  · intro sem allClasses hne
    unfold filterSemesterClasses
    by_cases hf : (allClasses.filter (fun x => matchesSemesterClass x.name sem)).isEmpty
    · simpa [hf] using hne
    · simp only [hf, Bool.false_eq_true, if_neg, not_false_iff]
      intro hc
      rw [hc] at hf
      exact hf rfl

/-- Witness for semesterFilterSpec: a nonempty course list with no
matching name still yields a nonempty result through the fallback. -/
theorem semesterFilterSpec_witness :
    filterSemesterClasses ["GLE", "ENG"] [artClass] ≠ [] :=
  semesterFilterSpec.2.2.1 ["GLE", "ENG"] [artClass] (by decide)

/-- An environment already sitting on the Brightspace destination when
login negotiation starts. -/
def bsArrivedEnv : BsLoginEnv :=
  { landingClickable := false,
    urlAfterLanding := "https://tdsb.elearningontario.ca/d2l/home",
    entra := { url := "https://tdsb.elearningontario.ca/d2l/home",
               loginfmtVisible := false, fallbackUserVisible := false,
               passwordVisible := false, nextClickable := false,
               signInClickable := false, stayPromptVisible := false } }

/-- C8: when the current address already matches the destination
pattern, the Brightspace login negotiation performs no credential-field
interaction, and the Entra handler returns immediately with every
field-entry state skipped whenever the destination address check
succeeds. -/
theorem loginShortCircuitSpec :
    (∀ env : BsLoginEnv,
        strContains env.urlAfterLanding "elearningontario.ca" = true →
        strContains env.urlAfterLanding "/d2l/" = true →
        (loginBrightspace env).all (fun a => !isCredentialAction a) = true)
    ∧ (∀ env : EntraEnv, entraDestReached env = true → handleEntraLogin env = []) := by
  constructor
  · intro env h1 h2
    unfold loginBrightspace
    simp only [h1, h2, Bool.and_self, if_pos, List.append_nil]
    by_cases hl : env.landingClickable
    · simp [hl, isCredentialAction]
    · simp [hl]
  · intro env h
    unfold handleEntraLogin
    simp [h]

/-- Witness for loginShortCircuitSpec: a session already on the
Brightspace home page produces no credential actions. -/
theorem loginShortCircuitSpec_witness :
    (loginBrightspace bsArrivedEnv).all (fun a => !isCredentialAction a) = true :=
  loginShortCircuitSpec.1 bsArrivedEnv (by decide) (by decide)

/-- A concrete Google Classroom class used in counterexamples. -/
def engGcClass : ClassInfo :=
  { name := "ENG4U", platform := Platform.googleClassroom,
    url := "https://classroom.google.com/c/abc" }

/-- The work item the work-to-do widget parser emits for a line whose
text contains the completion keyword done. -/
def doneLineItem : Assignment :=
  { title := "Essay done", course_name := "", platform := Platform.brightspace,
    item_type := ItemType.assignment, status := AssignmentStatus.notSubmitted }

/-- C1 counterexample: the Brightspace work-to-do parser emits an item
whose raw line contains the completion keyword done, and the Google
Classroom stream-item parser keeps an item whose raw text contains the
completion keyword submitted — so completion keywords do not always
cause a drop at extraction time. -/
theorem completionKeywordDropped_cex :
    strContains (pyLower "Essay done") "done" = true ∧
      scrapeWorkToDo (some "Work To Do\nEssay done") none = [doneLineItem] ∧
      strContains (pyLower (pyStrip "Planning Log\nSubmitted")) "submitted" = true ∧
      parseStreamItem noParse engGcClass
          { link := some ("Assignment: \"Planning Log\"", "/c/abc/a/1"),
            descText := none, dueText := none,
            fullText := "Planning Log\nSubmitted" } =
        some { title := "Planning Log", course_name := "ENG4U",
               platform := Platform.googleClassroom,
               item_type := ItemType.assignment, status := AssignmentStatus.assigned,
               due_date := none, due_date_str := "",
               url := "https://classroom.google.com/c/abc/a/1" } := by
  refine ⟨by decide, by decide, by decide, by decide⟩

/-- C1 amended: each extraction parser applies its own completion
filter — the Google Classroom stream-item parser drops an item exactly
when its raw text contains turned in or done while not containing
missing, the Brightspace assignment-row and quiz-row parsers drop a row
whose text contains submitted or completed, and the work-to-do widget
parser applies no completion filter at all. -/
theorem completionKeywordFilters :
    (∀ (pd : String → Option Int) (cls : ClassInfo) (it : StreamItemData),
        (strContains (pyLower (pyStrip it.fullText)) "turned in" = true ∨
          strContains (pyLower (pyStrip it.fullText)) "done" = true) →
        strContains (pyLower (pyStrip it.fullText)) "missing" = false →
        parseStreamItem pd cls it = none)
    ∧ (∀ (pd : String → Option Int) (cls : ClassInfo) (row : String),
        (strContains (pyLower (pyStrip row)) "submitted" = true ∨
          strContains (pyLower (pyStrip row)) "completed" = true) →
        parseBsRow pd cls row = none)
    ∧ (∀ (cls : ClassInfo) (row : String),
        (strContains (pyLower (pyStrip row)) "submitted" = true ∨
          strContains (pyLower (pyStrip row)) "completed" = true) →
        parseQuizRow cls row = none) := by
  refine ⟨?_, ?_, ?_⟩
  · intro pd cls it h1 h2
    have h3 : (strContains (pyLower (pyStrip it.fullText)) "turned in" ||
        strContains (pyLower (pyStrip it.fullText)) "done") = true := by
      rcases h1 with h | h <;> simp [h]
    simp [parseStreamItem, h2, h3]
  · intro pd cls row h
    have h3 : (strContains (pyLower (pyStrip row)) "submitted" ||
        strContains (pyLower (pyStrip row)) "completed") = true := by
      rcases h with h | h <;> simp [h]
    simp only [parseBsRow]
    split
    · rfl
    · split
      · rfl
      · split
        · rfl
        · simp [h3]
  · intro cls row h
    have h3 : (strContains (pyLower (pyStrip row)) "completed" ||
        strContains (pyLower (pyStrip row)) "submitted") = true := by
      rcases h with h | h <;> simp [h]
    simp only [parseQuizRow]
    split
    · rfl
    · split
      · rfl
      · split
        · rfl
        · simp [h3]

/-- Witness for completionKeywordFilters: a Brightspace row mentioning
a submission is dropped. -/
theorem completionKeywordFilters_witness :
    parseBsRow noParse engBsClass "Lab Report\nSubmitted Jan 5" = none :=
  completionKeywordFilters.2.1 noParse engBsClass "Lab Report\nSubmitted Jan 5"
    (Or.inl (by decide))

/-- A Google Classroom item titled Essay, as per-course extraction
would emit it. -/
def gcEssay : Assignment :=
  { title := "Essay", course_name := "ENG4U", platform := Platform.googleClassroom,
    status := AssignmentStatus.assigned }

/-- A Brightspace item titled Essay, as per-course extraction would
emit it. -/
def bsEssay : Assignment :=
  { title := "Essay", course_name := "ENG4U", platform := Platform.brightspace,
    status := AssignmentStatus.notSubmitted }

/-- A Google Classroom global-to-do item titled Essay. -/
def gcEssayTodo : Assignment :=
  { title := "Essay", course_name := "Unknown Class",
    platform := Platform.googleClassroom, status := AssignmentStatus.notSubmitted }

/-- C2 counterexample: two items with identical titles produced by the
two different sources in the same run both survive into the final
aggregate, which therefore contains two work items with that title
rather than exactly one. -/
theorem titleDedup_cex :
    countTitle
        (runModel (Except.ok ([], [gcEssay])) (Except.ok [])
          (Except.ok ([], [bsEssay]))).assignments "Essay" = 2 := by
  decide

/-- C2 amended: deduplication by title happens only between a source's
global to-do pass and the items that same source already collected —
a global-pass item is dropped when its title is already present, so a
per-course item and a same-source global-pass item with the same title
yield exactly as many items with that title as the per-course pass
alone; duplicates across the two sources (or among per-course items)
are retained. -/
theorem titleDedupWithinSource :
    (∀ (base extra : List Assignment) (t : String),
        (base.map (fun a => a.title)).contains t = true →
        countTitle (dedupAppend base extra) t = countTitle base t)
    ∧ (∀ (base extra : List Assignment) (x : Assignment),
        x ∈ dedupAppend base extra →
        x ∈ base ∨ (x ∈ extra ∧ (base.map (fun a => a.title)).contains x.title = false)) := by
  constructor
  · intro base extra t ht
    unfold countTitle dedupAppend
    rw [List.filter_append, List.length_append]
    have hz :
        (extra.filter (fun a => !((base.map (fun a => a.title)).contains a.title))).filter
            (fun a => a.title == t) = [] := by
      rw [List.filter_filter, List.filter_eq_nil_iff]
      intro a ha hpa
      simp only [Bool.and_eq_true, Bool.not_eq_true', beq_iff_eq] at hpa
      obtain ⟨h1x, h2x⟩ := hpa
      rw [h1x, ht] at h2x
      exact Bool.noConfusion h2x
    rw [hz]
    simp
  · intro base extra x hx
    unfold dedupAppend at hx
    rcases List.mem_append.mp hx with h | h
    · exact Or.inl h
    · have h2 := List.mem_filter.mp h
      refine Or.inr ⟨h2.1, ?_⟩
      have := h2.2
      simpa using this

/-- Witness for titleDedupWithinSource: a global-pass duplicate of an
already-collected title leaves the count for that title unchanged. -/
theorem titleDedupWithinSource_witness :
    countTitle (dedupAppend [gcEssay] [gcEssayTodo]) "Essay" = countTitle [gcEssay] "Essay" :=
  titleDedupWithinSource.1 [gcEssay] [gcEssayTodo] "Essay" (by decide)

/-- The future-dated Assigned item of the sorting scenario (three days
after the evaluation instant zero). -/
def exAssigned : Assignment :=
  { title := "A", course_name := "ENG4U", platform := Platform.googleClassroom,
    status := AssignmentStatus.assigned, due_date := some 259200 }

/-- The Missing item of the sorting scenario, with no due date. -/
def exMissing : Assignment :=
  { title := "B", course_name := "ENG4U", platform := Platform.googleClassroom,
    status := AssignmentStatus.missing, due_date := none }

/-- The Late overdue item of the sorting scenario (one day before the
evaluation instant zero). -/
def exLate : Assignment :=
  { title := "C", course_name := "ENG4U", platform := Platform.googleClassroom,
    status := AssignmentStatus.late, due_date := some (-86400) }

unseal List.merge List.mergeSort in
/-- C4: the within-course sort permutes the group and orders it by the
composite key — Missing first, then overdue, then dated items by
ascending due date, then undated items last (the bucket number is
ascending, and inside one bucket the due date with the far-future
sentinel substituted is ascending); on the concrete scenario the
Missing and overdue items come before the future-dated Assigned
item. -/
theorem courseGroupSortSpec :
    (∀ (now : Int) (l : List Assignment), (sortCourseGroup now l).Perm l)
    ∧ (∀ (now : Int) (l : List Assignment),
        (sortCourseGroup now l).Pairwise (fun a b =>
          sortBucket now a < sortBucket now b ∨
            (sortBucket now a = sortBucket now b ∧
              a.due_date.getD dtMax ≤ b.due_date.getD dtMax)))
    ∧ sortCourseGroup 0 [exAssigned, exMissing, exLate] = [exMissing, exLate, exAssigned] := by
  refine ⟨?_, ?_, by decide⟩
  · intro now l
    exact List.mergeSort_perm l _
  · intro now l
    have hs := @List.sorted_mergeSort Assignment
      (fun a b => tupLe (sortKey now a) (sortKey now b))
      (by
        intro a b c hab hbc
        simp only [tupLe, sortKey, decide_eq_true_eq] at *
        omega)
      (by
        intro a b
        simp only [tupLe, sortKey, Bool.or_eq_true, decide_eq_true_eq]
        omega)
      l
    refine List.Pairwise.imp ?_ hs
    intro a b h
    simpa [tupLe, sortKey] using h

/-- Stream items parsed successfully always carry a nonempty title. -/
theorem titleNe_parseStreamItem (pd : String → Option Int) (cls : ClassInfo)
    (it : StreamItemData) (a : Assignment) (ha : parseStreamItem pd cls it = some a) :
    a.title ≠ "" := by
  by_cases ht : itemTitle it = ""
  · simp [parseStreamItem, ht] at ha
  · simp only [parseStreamItem] at ha
    rw [if_neg ht] at ha
    repeat' split at ha
    all_goals
      first
        | exact Option.noConfusion ha
        | (obtain rfl := Option.some.inj ha; exact ht)

/-- Global to-do items parsed successfully always carry a nonempty
title. -/
theorem titleNe_parseGlobalTodoItem (pd : String → Option Int) (sem : List String)
    (it : StreamItemData) (a : Assignment)
    (ha : parseGlobalTodoItem pd sem it = some a) : a.title ≠ "" := by
  by_cases ht : itemTitle it = ""
  · simp [parseGlobalTodoItem, ht] at ha
  · simp only [parseGlobalTodoItem] at ha
    rw [if_neg ht] at ha
    obtain rfl := Option.some.inj ha
    exact ht

/-- Assignment rows parsed successfully always carry a nonempty title. -/
theorem titleNe_parseBsRow (pd : String → Option Int) (cls : ClassInfo) (row : String)
    (a : Assignment) (ha : parseBsRow pd cls row = some a) : a.title ≠ "" := by
  simp only [parseBsRow] at ha
  split at ha
  · exact Option.noConfusion ha
  · split at ha
    · exact Option.noConfusion ha
    · rename_i title restLines hcl
      split at ha
      · exact Option.noConfusion ha
      · split at ha
        · exact Option.noConfusion ha
        · obtain rfl := Option.some.inj ha
          exact cleanLines_ne_empty (pyStrip row) title (by rw [hcl]; exact List.mem_cons_self _ _)

/-- Quiz rows parsed successfully always carry a nonempty title. -/
theorem titleNe_parseQuizRow (cls : ClassInfo) (row : String) (a : Assignment)
    (ha : parseQuizRow cls row = some a) : a.title ≠ "" := by
  simp only [parseQuizRow] at ha
  split at ha
  · exact Option.noConfusion ha
  · split at ha
    · exact Option.noConfusion ha
    · rename_i title restLines hcl
      split at ha
      · exact Option.noConfusion ha
      · split at ha
        · exact Option.noConfusion ha
        · obtain rfl := Option.some.inj ha
          exact cleanLines_ne_empty (pyStrip row) title (by rw [hcl]; exact List.mem_cons_self _ _)

/-- Announcement rows parsed successfully always carry a nonempty
title. -/
theorem titleNe_parseAnnouncementRow (cls : ClassInfo) (row : String) (a : Assignment)
    (ha : parseAnnouncementRow cls row = some a) : a.title ≠ "" := by
  simp only [parseAnnouncementRow] at ha
  split at ha
  · exact Option.noConfusion ha
  · split at ha
    · exact Option.noConfusion ha
    · rename_i title restLines hcl
      split at ha
      · exact Option.noConfusion ha
      · split at ha
        · exact Option.noConfusion ha
        · obtain rfl := Option.some.inj ha
          exact cleanLines_ne_empty (pyStrip row) title (by rw [hcl]; exact List.mem_cons_self _ _)

/-- API-sourced assignments always carry a nonempty title. -/
theorem titleNe_fetchAssignmentsApi (pd : String → Option Int) (cls : ClassInfo)
    (data : Option (List DropboxFolder)) (a : Assignment)
    (ha : a ∈ fetchAssignmentsApi pd cls data) : a.title ≠ "" := by
  unfold fetchAssignmentsApi at ha
  cases data with
  | none => simp at ha
  | some folders =>
    simp only [List.mem_filterMap] at ha
    obtain ⟨f, hf, hsome⟩ := ha
    split at hsome
    · rename_i hname
      obtain rfl := Option.some.inj hsome
      exact hname
    · exact Option.noConfusion hsome

/-- Upcoming calendar events always carry a nonempty title. -/
theorem titleNe_scrapeUpcomingEvents (ct : Option String) (a : Assignment)
    (ha : a ∈ scrapeUpcomingEvents ct) : a.title ≠ "" := by
  unfold scrapeUpcomingEvents at ha
  cases ct with
  | none => simp at ha
  | some t =>
    simp only [List.mem_filterMap] at ha
    obtain ⟨line, hline, hsome⟩ := ha
    split at hsome
    · exact Option.noConfusion hsome
    · obtain rfl := Option.some.inj hsome
      exact cleanLines_ne_empty (pyStrip t) line hline

/-- Work-to-do widget items always carry a nonempty title. -/
theorem titleNe_scrapeWorkToDo (wt ct : Option String) (a : Assignment)
    (ha : a ∈ scrapeWorkToDo wt ct) : a.title ≠ "" := by
  simp only [scrapeWorkToDo] at ha
  rcases List.mem_append.mp ha with h | h
  · cases wt with
    | none => simp at h
    | some t =>
      simp only [List.mem_filterMap] at h
      obtain ⟨line, hline, hsome⟩ := h
      split at hsome
      · exact Option.noConfusion hsome
      · obtain rfl := Option.some.inj hsome
        exact cleanLines_ne_empty (pyStrip t) line hline
  · exact titleNe_scrapeUpcomingEvents ct a h

/-- Per-class Brightspace assignment extraction only emits items with
nonempty titles. -/
theorem titleNe_scrapeClassAssignments (pd : String → Option Int) (cls : ClassInfo)
    (api : Option (List DropboxFolder)) (rows quizRows : List String) (a : Assignment)
    (ha : a ∈ scrapeClassAssignments pd cls api rows quizRows) : a.title ≠ "" := by
  simp only [scrapeClassAssignments] at ha
  split at ha
  · simp at ha
  · split at ha
    · exact titleNe_fetchAssignmentsApi pd cls api a ha
    · rcases List.mem_append.mp ha with h | h
      · obtain ⟨row, hrow, hsome⟩ := List.mem_filterMap.mp h
        exact titleNe_parseBsRow pd cls row a hsome
      · obtain ⟨row, hrow, hsome⟩ := List.mem_filterMap.mp h
        exact titleNe_parseQuizRow cls row a hsome

/-- The news-API item loop only appends items with nonempty titles. -/
theorem titleNe_newsApiLoop (cls : ClassInfo) :
    ∀ (l : List NewsPayloadItem) (a : Assignment),
      a ∈ (newsApiLoop cls l).1 → a.title ≠ "" := by
  intro l
  induction l with
  | nil => intro a ha; simp [newsApiLoop] at ha
  | cons x rest ih =>
    intro a ha
    cases x with
    | bad => simp [newsApiLoop] at ha
    | ok t b =>
      simp only [newsApiLoop] at ha
      rcases List.mem_append.mp ha with h | h
      · split at h
        · simp at h
        · rename_i hts
          simp only [List.mem_singleton] at h
          subst h
          exact hts
      · exact ih a h

/-- The API section of announcement extraction only keeps items with
nonempty titles. -/
theorem titleNe_newsApiStep (cls : ClassInfo) (api : Option (List NewsPayloadItem))
    (a : Assignment) (ha : a ∈ (newsApiStep cls api).1) : a.title ≠ "" := by
  unfold newsApiStep at ha
  cases api with
  | none => simp at ha
  | some items =>
    by_cases he : items.isEmpty
    · simp [he] at ha
    · simp only [he, Bool.false_eq_true, if_neg, not_false_iff] at ha
      exact titleNe_newsApiLoop cls _ a ha

/-- Per-class Brightspace announcement extraction only emits items with
nonempty titles, on the API path, the partial-plus-fallback path and
the pure HTML path alike. -/
theorem titleNe_scrapeClassAnnouncements (cls : ClassInfo) (api : Option (List NewsPayloadItem))
    (htmlItems : List String) (a : Assignment)
    (ha : a ∈ scrapeClassAnnouncements cls api htmlItems) : a.title ≠ "" := by
  simp only [scrapeClassAnnouncements] at ha
  split at ha
  · simp at ha
  · split at ha
    · exact titleNe_newsApiStep cls api a ha
    · rcases List.mem_append.mp ha with h | h
      · exact titleNe_newsApiStep cls api a h
      · obtain ⟨row, hrow, hsome⟩ := List.mem_filterMap.mp h
        exact titleNe_parseAnnouncementRow cls row a hsome

/-- C3: every work item any modelled parser emits has a nonempty title;
fragments yielding no title are dropped (the parsers return none or
skip the row) instead of being emitted with a placeholder. -/
theorem emittedTitlesNonEmpty :
    (∀ (pd : String → Option Int) (cls : ClassInfo) (it : StreamItemData) (a : Assignment),
        parseStreamItem pd cls it = some a → a.title ≠ "")
    ∧ (∀ (pd : String → Option Int) (sem : List String) (it : StreamItemData) (a : Assignment),
        parseGlobalTodoItem pd sem it = some a → a.title ≠ "")
    ∧ (∀ (pd : String → Option Int) (cls : ClassInfo) (api : Option (List DropboxFolder))
        (rows quizRows : List String) (a : Assignment),
        a ∈ scrapeClassAssignments pd cls api rows quizRows → a.title ≠ "")
    ∧ (∀ (cls : ClassInfo) (api : Option (List NewsPayloadItem)) (htmlItems : List String)
        (a : Assignment),
        a ∈ scrapeClassAnnouncements cls api htmlItems → a.title ≠ "")
    ∧ (∀ (wt ct : Option String) (a : Assignment),
        a ∈ scrapeWorkToDo wt ct → a.title ≠ "") :=
  ⟨titleNe_parseStreamItem, titleNe_parseGlobalTodoItem,
    fun pd cls api rows quizRows a =>
      titleNe_scrapeClassAssignments pd cls api rows quizRows a,
    fun cls api htmlItems a => titleNe_scrapeClassAnnouncements cls api htmlItems a,
    titleNe_scrapeWorkToDo⟩

/-- Witness for emittedTitlesNonEmpty: the item parsed from a concrete
assignment row has a nonempty title. -/
theorem emittedTitlesNonEmpty_witness :
    parseBsRow noParse engBsClass "Lab Report\nOverdue" =
        some { title := "Lab Report", course_name := "ENG4U",
               platform := Platform.brightspace, item_type := ItemType.assignment,
               status := AssignmentStatus.missing, due_date := none, due_date_str := "" }
      ∧ ("Lab Report" : String) ≠ "" := by
  constructor
  · decide
  · have h := emittedTitlesNonEmpty
    have h2 : ∀ (pd : String → Option Int) (cls : ClassInfo) (api : Option (List DropboxFolder))
        (rows quizRows : List String) (a : Assignment),
        a ∈ scrapeClassAssignments pd cls api rows quizRows → a.title ≠ "" := h.2.2.1
    exact h2 noParse engBsClass none ["Lab Report\nOverdue"] []
      { title := "Lab Report", course_name := "ENG4U",
        platform := Platform.brightspace, item_type := ItemType.assignment,
        status := AssignmentStatus.missing, due_date := none, due_date_str := "" }
      (by decide)

/-- The keys after inserting into a group list: unchanged when the key
exists, else the new key is appended. -/
theorem addToGroups_fst (gs : List (String × List (String × String))) (cid : String)
    (e : String × String) :
    (addToGroups gs cid e).map Prod.fst =
      if cid ∈ gs.map Prod.fst then gs.map Prod.fst else gs.map Prod.fst ++ [cid] := by
  induction gs with
  | nil => simp [addToGroups]
  | cons g rest ih =>
    obtain ⟨k, es⟩ := g
    by_cases h : k = cid
    · subst h
      simp [addToGroups]
    · simp only [addToGroups, h, if_neg, not_false_iff, List.map_cons, ih]
      by_cases h2 : cid ∈ rest.map Prod.fst
      · simp [h2, List.mem_cons, Ne.symm h]
      · simp [h2, List.mem_cons, Ne.symm h]

/-- Insertion into a group list preserves distinctness of the keys. -/
theorem addToGroups_fst_nodup {gs : List (String × List (String × String))} {cid : String}
    (e : String × String) (h : (gs.map Prod.fst).Nodup) :
    ((addToGroups gs cid e).map Prod.fst).Nodup := by
  rw [addToGroups_fst]
  by_cases h2 : cid ∈ gs.map Prod.fst
  · simpa [h2] using h
  · simp [h2, List.nodup_append, h]

/-- Key membership after insertion into a group list. -/
theorem mem_addToGroups_fst (gs : List (String × List (String × String)))
    (cid x : String) (e : String × String) :
    x ∈ (addToGroups gs cid e).map Prod.fst ↔ x ∈ gs.map Prod.fst ∨ x = cid := by
  rw [addToGroups_fst]
  by_cases h : cid ∈ gs.map Prod.fst
  · simp only [h, if_pos]
    constructor
    · exact Or.inl
    · rintro (hx | rfl)
      · exact hx
      · exact h
  · simp [h]

/-- The grouping fold keeps the keys distinct. -/
theorem groupByCid_fold_nodup : ∀ (ls : List (String × String × String))
    (acc : List (String × List (String × String))),
    (acc.map Prod.fst).Nodup →
    ((ls.foldl (fun gs e => addToGroups gs e.1 (e.2.1, e.2.2)) acc).map Prod.fst).Nodup := by
  intro ls
  induction ls with
  | nil => intro acc h; simpa using h
  | cons y rest ih =>
    intro acc h
    simp only [List.foldl_cons]
    exact ih _ (addToGroups_fst_nodup _ h)

/-- The keys produced by the grouping fold are exactly the accumulator
keys plus the course ids of the processed links. -/
theorem groupByCid_fold_mem : ∀ (ls : List (String × String × String))
    (acc : List (String × List (String × String))) (x : String),
    (x ∈ (ls.foldl (fun gs e => addToGroups gs e.1 (e.2.1, e.2.2)) acc).map Prod.fst ↔
      x ∈ acc.map Prod.fst ∨ x ∈ ls.map (fun e => e.1)) := by
  intro ls
  induction ls with
  | nil => intro acc x; simp
  | cons y rest ih =>
    intro acc x
    simp only [List.foldl_cons, List.map_cons, List.mem_cons]
    rw [ih, mem_addToGroups_fst]
    tauto

/-- The chosen entry of a group is a member of the group and has
maximal text length. -/
theorem pickBest_mem_max : ∀ (rest : List (String × String)) (e : String × String),
    pickBest e rest ∈ e :: rest ∧
      ∀ x ∈ e :: rest, x.2.length ≤ (pickBest e rest).2.length := by
  intro rest
  induction rest with
  | nil =>
    intro e
    constructor
    · simp [pickBest]
    · intro x hx
      simp only [List.mem_singleton] at hx
      subst hx
      simp [pickBest]
  | cons y ys ih =>
    intro e
    have hstep : pickBest e (y :: ys) =
        pickBest (if e.2.length < y.2.length then y else e) ys := rfl
    obtain ⟨hmem, hmax⟩ := ih (if e.2.length < y.2.length then y else e)
    have hhead : (if e.2.length < y.2.length then y else e).2.length ≤
        (pickBest (if e.2.length < y.2.length then y else e) ys).2.length :=
      hmax _ (List.mem_cons_self _ _)
    constructor
    · rw [hstep]
      rcases List.mem_cons.mp hmem with h | h
      · rw [h]
        by_cases hc : e.2.length < y.2.length
        · simp [hc]
        · simp [hc]
      · exact List.mem_cons_of_mem _ (List.mem_cons_of_mem _ h)
    · intro x hx
      rw [hstep]
      rcases List.mem_cons.mp hx with h | h
      · subst h
        by_cases hc : x.2.length < y.2.length
        · exact le_trans (le_of_lt hc) (by simpa [hc] using hhead)
        · simpa [hc] using hhead
      · rcases List.mem_cons.mp h with h2 | h2
        · subst h2
          by_cases hc : e.2.length < x.2.length
          · simpa [hc] using hhead
          · exact le_trans (Nat.le_of_not_lt hc) (by simpa [hc] using hhead)
        · exact hmax x (List.mem_cons_of_mem _ h2)

/-- The one-character icon fragment of the consolidation scenario. -/
def fragIcon : RawLink := { href := "/c/abc123", innerText := "G", textContent := "" }

/-- The twelve-character fragment of the consolidation scenario. -/
def fragShort : RawLink :=
  { href := "/c/abc123/sp/extra", innerText := "GLE Strategy", textContent := "" }

/-- The forty-character fragment of the consolidation scenario. -/
def fragFull : RawLink :=
  { href := "/c/abc123", innerText := "G\nGLE - Learning Strategies D\n109/209/30",
    textContent := "" }

/-- C5: course consolidation yields one course per distinct course id
(the group keys are exactly the ids of the valid links and are
distinct), the fragment chosen per group has maximal text length, the
display name comes from the second line when the first line is a one or
two character icon glyph and from the first line otherwise, and on the
concrete scenario with fragments of lengths one, twelve and forty the
forty-character fragment names the course. -/
theorem courseConsolidationSpec :
    (∀ links : List RawLink, ((groupByCid (validLinks links)).map Prod.fst).Nodup)
    ∧ (∀ (links : List RawLink) (cid : String),
        cid ∈ (groupByCid (validLinks links)).map Prod.fst ↔
          cid ∈ (validLinks links).map (fun e => e.1))
    ∧ (∀ (rest : List (String × String)) (e : String × String),
        pickBest e rest ∈ e :: rest ∧
          ∀ x ∈ e :: rest, x.2.length ≤ (pickBest e rest).2.length)
    ∧ (∀ (cid t l0 l1 : String) (rest2 : List String),
        cleanLines t = l0 :: l1 :: rest2 → l0.length ≤ 2 → (classNameOf cid t).1 = l1)
    ∧ (∀ (cid t l0 : String) (rest : List String),
        cleanLines t = l0 :: rest → 2 < l0.length → (classNameOf cid t).1 = l0)
    ∧ ((linkText fragIcon).length = 1 ∧ (linkText fragShort).length = 12
        ∧ (linkText fragFull).length = 40
        ∧ scrapeClassList ["GLE"] [fragIcon, fragShort, fragFull] [] =
            [{ name := "GLE - Learning Strategies D",
               platform := Platform.googleClassroom,
               url := "https://classroom.google.com/c/abc123",
               teacher := "109/209/30", short_code := "GLE" }]) := by
  refine ⟨?_, ?_, pickBest_mem_max, ?_, ?_, by decide⟩
  · intro links
    exact groupByCid_fold_nodup (validLinks links) [] (by simp)
  · intro links cid
    unfold groupByCid
    rw [groupByCid_fold_mem]
    simp
  · intro cid t l0 l1 rest2 hcl hle
    unfold classNameOf
    rw [hcl]
    have hc : (l1 :: rest2).length + 1 ≥ 2 := by simp
    simp [hle, hc]
  · intro cid t l0 rest hcl hgt
    unfold classNameOf
    rw [hcl]
    have hc : ¬ l0.length ≤ 2 := Nat.not_le.mpr hgt
    simp [hc]

/-- Witness for courseConsolidationSpec: the icon-glyph first line makes
the second line the course name on a concrete fragment. -/
theorem courseConsolidationSpec_witness :
    (classNameOf "abc123" "G\nGLE - Learning Strategies D\n109/209/30").1 =
      "GLE - Learning Strategies D" :=
  courseConsolidationSpec.2.2.2.1 "abc123" "G\nGLE - Learning Strategies D\n109/209/30"
    "G" "GLE - Learning Strategies D" ["109/209/30"] (by decide) (by decide)

end ClassroomAggregator
